import Mathlib

/-!
Shallow embedding of the `react-hooks-localstorage` library core: the
`LocalStorageManager` class (encryption-aware variant), the `useLocalStorage`
base hook's `setValue` mirror update, and the `useLocalStorageCache` hook's
fetch guard and staleness effect.

Modelling conventions:
* The raw browser store is an association list of (full key, stored string);
  `World` additionally carries the clock (`Date.now()`), the log of errors
  routed through the configured `onError` callback, the log of dispatched
  `localStorageChange` events, and a knob `setFailure` that makes the raw
  store's `setItem` throw an error with the given name (modelling the external
  collaborator contract "set throws on capacity").
* JS strings that matter here form a free algebra `JStr`: `envJson e` is the
  result of `JSON.stringify` on an envelope-shaped object, `aes p k` is the
  result of `CryptoJS.AES.encrypt(JSON.stringify(p), k).toString()`, and
  `lit s` is an arbitrary string that is not valid envelope JSON (corrupt
  data).  `decryptJStr` models the source's `decrypt` method, which composes
  `AES.decrypt` with `.toString(Utf8)` and `JSON.parse`: it recovers the
  plaintext string exactly when the key matches and throws (here: `none`)
  otherwise.
* Fallible operations return `Option`; totality of the Lean functions models
  the source's guarantee of never throwing past the manager boundary.
-/

namespace LSModel

/-- JSON-like payload values (the user data stored in an envelope). -/
inductive Jval where
  | jnull
  | jbool (b : Bool)
  | jnum (n : Int)
  | jstr (s : String)
  | jarr (xs : List Jval)
  | jobj (fs : List (String × Jval))

/-- The persisted record envelope `ExpiringLocalStorageValue<T>`:
`{value, expiresAt: number | null, createdAt, version}`. -/
structure Envelope where
  value : Jval
  expiresAt : Option Int
  createdAt : Int
  version : String

/-- Model of the JS strings handled by the manager (see module docstring). -/
inductive JStr where
  | lit (s : String)
  | envJson (e : Envelope)
  | aes (plain : JStr) (key : String)

/-- The error taxonomy of `LocalStorageError.type`. -/
inductive ErrType where
  | quotaExceeded
  | serializationError
  | deserializationError
  | unknownError
  deriving DecidableEq, Repr

/-- Payload of the in-process `localStorageChange` custom event:
`detail = {key, newValue, oldValue}` (the `oldValue` argument has type
`T | null` because it is produced by `this.getItem(key)`). -/
structure EventDetail where
  key : String
  newValue : Jval
  oldValue : Option Jval

/-- Manager construction options: `prefix` (here `keyPfx`) and default
schema `version`; the `onError` callback is modelled by the error log. -/
structure Config where
  keyPfx : String
  version : String
  deriving DecidableEq, Repr

/-- The default instance `new LocalStorageManager()`. -/
def defaultConfig : Config :=
  { keyPfx := "", version := "1.0.0" }

/-- Per-call `LocalStorageOptions`: every field optional, `none` models an
absent (undefined) field. -/
structure Options where
  ttl : Option Int := none
  serialize : Option (Envelope → JStr) := none
  deserialize : Option (JStr → Option Envelope) := none
  syncAcrossTabs : Option Bool := none
  version : Option String := none
  autoEncrypt : Option Bool := none
  secretKey : Option String := none

/-- Options object `{}`. -/
def noOptions : Options := {}

/-- World state threaded through the manager operations. -/
structure World where
  available : Bool
  now : Int
  store : List (String × JStr)
  setFailure : Option String
  errors : List ErrType
  events : List EventDetail

/-- Result of `setItem`: `true | false | "unavailable"`. -/
inductive SetResult where
  | ok
  | failed
  | unavailable
  deriving DecidableEq, Repr

/-- JS truthiness of a payload value. -/
def jsTruthy : Jval → Bool
  | .jnull => false
  | .jbool b => b
  | .jnum n => n != 0
  | .jstr s => s != ""
  | .jarr _ => true
  | .jobj _ => true

/-- JS truthiness of an optional number (absent and 0 are falsy). -/
def optIntTruthy : Option Int → Bool
  | some n => n != 0
  | none => false

/-- JS truthiness of an optional string (absent and "" are falsy). -/
def optStrTruthy : Option String → Bool
  | some s => s != ""
  | none => false

/-- `window.localStorage.getItem` on the association-list store. -/
def rawGet : List (String × JStr) → String → Option JStr
  | [], _ => none
  | p :: rest, k => if p.1 = k then some p.2 else rawGet rest k

/-- `window.localStorage.setItem`: overwrite in place (first occurrence,
the only one when keys are unique, as they are in a real store), or append. -/
def rawSet : List (String × JStr) → String → JStr → List (String × JStr)
  | [], k, v => [(k, v)]
  | p :: rest, k, v => if p.1 = k then (k, v) :: rest else p :: rawSet rest k v

/-- `window.localStorage.removeItem`. -/
def rawRemove : List (String × JStr) → String → List (String × JStr)
  | [], _ => []
  | p :: rest, k => if p.1 = k then rawRemove rest k else p :: rawRemove rest k

/-- `private getKey(key)`: `this.prefix ? prefix + ":" + key : key`. -/
def getKey (cfg : Config) (key : String) : String :=
  if cfg.keyPfx == "" then key else cfg.keyPfx ++ ":" ++ key

/-- `JSON.parse` on a stored string, read as an envelope.  `envJson e`
parses back to `e`; ciphertext and `lit` strings model data that is not
valid envelope JSON and make `JSON.parse` (or the field accesses after it)
fail. -/
def jsonParseEnv : JStr → Option Envelope
  | .envJson e => some e
  | _ => none

/-- `private decrypt(cipher, secretKey)`: succeeds with the original
plaintext string exactly when the key matches; a wrong key or a
non-ciphertext input makes the UTF-8 decode / `JSON.parse` inside throw. -/
def decryptJStr : JStr → String → Option JStr
  | .aes plain k, k' => if k == k' then some plain else none
  | _, _ => none

/-- The guard `options.autoEncrypt && options.secretKey`. -/
def isEncrypting (opts : Options) : Bool :=
  (opts.autoEncrypt == some true) && optStrTruthy opts.secretKey

/-- The expiry test `data.expiresAt && Date.now() > data.expiresAt`
(a stored `expiresAt` of `null` or `0` is falsy, hence never expired). -/
def isExpiredAt (now : Int) (e : Envelope) : Bool :=
  match e.expiresAt with
  | some n => n != 0 && decide (now > n)
  | none => false

/-- The guard `if (!item)`: `localStorage.getItem` returned the empty
string (the `null` case is handled by `rawGet` returning `none`). -/
def isEmptyStr : JStr → Bool
  | .lit s => s == ""
  | _ => false

/-- `options.version || this.version`. -/
def effVersion (cfg : Config) (opts : Options) : String :=
  match opts.version with
  | some s => if s == "" then cfg.version else s
  | none => cfg.version

/-- `options.serialize || this.defaultSerialize` (the default serializer is
`JSON.stringify`, i.e. `envJson`). -/
def effSerialize (opts : Options) : Envelope → JStr :=
  opts.serialize.getD JStr.envJson

/-- `options.deserialize || this.defaultDeserialize`. -/
def effDeserialize (opts : Options) : JStr → Option Envelope :=
  opts.deserialize.getD jsonParseEnv

/-- `options.ttl ? Date.now() + options.ttl : null` (a `ttl` of 0 is
falsy, so it yields `null`, i.e. a never-expiring record). -/
def mkExpiresAt (now : Int) (ttl : Option Int) : Option Int :=
  match ttl with
  | some n => if n != 0 then some (now + n) else none
  | none => none

/-- `removeItem(key)`: deletes `prefix:key`; the raw removal itself is
modelled as infallible (the source's catch-and-report branch for a failing
raw remove is not exercised by any claim). -/
def removeItem (cfg : Config) (w : World) (key : String) : World :=
  if w.available then { w with store := rawRemove w.store (getKey cfg key) }
  else w

/-- The decode pipeline of `getItem`: decrypt first when
`autoEncrypt && secretKey`, then deserialize; `none` models a throw that
`getItem`'s catch block turns into a `DESERIALIZATION_ERROR`. -/
def decodeEnv (opts : Options) (item : JStr) : Option Envelope :=
  if isEncrypting opts then
    match decryptJStr item (opts.secretKey.getD "") with
    | none => none
    | some plain => effDeserialize opts plain
  else effDeserialize opts item

/-- `getItem(key, options)`: read raw bytes, decrypt if configured,
deserialize, lazily delete on expiry; any decode failure is classified as
`DESERIALIZATION_ERROR`, routed to the error callback, and `null` is
returned.  Totality of this function models "never throws to the caller". -/
def getItem (cfg : Config) (w : World) (key : String) (opts : Options) :
    Option Jval × World :=
  if !w.available then (none, w) else
  match rawGet w.store (getKey cfg key) with
  | none => (none, w)
  | some item =>
    if isEmptyStr item then (none, w) else
    match decodeEnv opts item with
    | none => (none, { w with errors := w.errors ++ [ErrType.deserializationError] })
    | some data =>
      if isExpiredAt w.now data then (none, removeItem cfg w key)
      else (some data.value, w)

/-- Metadata returned by `getItemMetadata`. -/
structure Metadata where
  createdAt : Int
  expiresAt : Option Int
  version : String
  deriving DecidableEq, Repr

/-- `getItemMetadata(key)`: plain `JSON.parse` of the stored string, no
expiry enforcement, no decryption; returns `null` on absence or any parse
failure.  It performs no store mutation, which the pure return type records. -/
def getItemMetadata (cfg : Config) (w : World) (key : String) : Option Metadata :=
  if !w.available then none else
  match rawGet w.store (getKey cfg key) with
  | none => none
  | some item =>
    if isEmptyStr item then none else
    match jsonParseEnv item with
    | none => none
    | some data => some ⟨data.createdAt, data.expiresAt, data.version⟩

/-- `setItem(key, value, options)`: build the envelope, serialize (and
encrypt when configured), write, then — unless `syncAcrossTabs === false` —
dispatch the `localStorageChange` event whose `oldValue` argument is the
result of `this.getItem(key)` evaluated AFTER the write, with no options.
A throwing raw write is caught and classified `QUOTA_EXCEEDED` when the
error is named `QuotaExceededError`, else `SERIALIZATION_ERROR`. -/
def setItem (cfg : Config) (w : World) (key : String) (value : Jval)
    (opts : Options) : SetResult × World :=
  if !w.available then (.unavailable, w) else
  let dataToStore : Envelope :=
    { value := value
      expiresAt := mkExpiresAt w.now opts.ttl
      createdAt := w.now
      version := effVersion cfg opts }
  let serializedData : JStr :=
    if isEncrypting opts then
      JStr.aes (effSerialize opts dataToStore) (opts.secretKey.getD "")
    else effSerialize opts dataToStore
  match w.setFailure with
  | some errName =>
    let et : ErrType :=
      if errName == "QuotaExceededError" then .quotaExceeded
      else .serializationError
    (.failed, { w with errors := w.errors ++ [et] })
  | none =>
    let w1 := { w with store := rawSet w.store (getKey cfg key) serializedData }
    if opts.syncAcrossTabs == some false then (.ok, w1)
    else
      let res := getItem cfg w1 key noOptions
      (.ok, { res.2 with events := res.2.events ++ [⟨key, value, res.1⟩] })

/-- `this.prefix ? prefix + ":" : ""`, the string used by `getAllKeys`
for filtering and stripping. -/
def pfxColon (cfg : Config) : String :=
  if cfg.keyPfx == "" then "" else cfg.keyPfx ++ ":"

/-- `key.startsWith(pfx)`, computed on the character lists. -/
def strStarts (s pfx : String) : Bool :=
  pfx.data.isPrefixOf s.data

/-- `key.slice` by character count (the effect of `key.replace(pfx, "")`
when `key` starts with `pfx`), computed on the character lists. -/
def strDrop (s : String) (n : Nat) : String :=
  ⟨s.data.drop n⟩

/-- `getAllKeys()`: keys of the raw store that start with the prefix, with
the first occurrence of the prefix removed (`key.replace(prefix, "")`,
which strips the leading prefix since the key starts with it). -/
def getAllKeys (cfg : Config) (w : World) : List String :=
  if !w.available then [] else
  ((w.store.map Prod.fst).filter (fun k => strStarts k (pfxColon cfg))).map
    (fun k => strDrop k (pfxColon cfg).length)

/-- Cleanup candidate test for one stored string: the `try` body of the
`cleanupExpiredItems` loop counts an entry when `JSON.parse` throws
(corrupt) or the parsed envelope is expired. -/
def badStr (now : Int) (s : JStr) : Bool :=
  match jsonParseEnv s with
  | none => true
  | some d => isExpiredAt now d

/-- One iteration of the `keys.forEach` loop in `cleanupExpiredItems`. -/
def cleanupStep (cfg : Config) (acc : Nat × World) (key : String) : Nat × World :=
  match rawGet acc.2.store (getKey cfg key) with
  | none => acc
  | some raw =>
    if isEmptyStr raw then acc
    else if badStr acc.2.now raw then (acc.1 + 1, removeItem cfg acc.2 key)
    else acc

/-- `cleanupExpiredItems()`: snapshot the prefixed keys, then delete and
count every entry that is expired or unparsable. -/
def cleanupExpiredItems (cfg : Config) (w : World) : Nat × World :=
  if !w.available then (0, w) else
  (getAllKeys cfg w).foldl (cleanupStep cfg) (0, w)

/-- The `setValue` branch logic of the base `useLocalStorage` hook: on
`"unavailable"` or `true` the in-memory mirror is updated to the new value;
on `false` the hook throws internally, catches, records a local error, and
leaves the mirror unchanged. -/
def setValueHook (cfg : Config) (w : World) (key : String) (opts : Options)
    (mirror : Jval) (newVal : Jval) : World × Jval :=
  match setItem cfg w key newVal opts with
  | (.unavailable, w') => (w', newVal)
  | (.ok, w') => (w', newVal)
  | (.failed, w') => (w', mirror)

/-- `getCreatedAt()` of the base hook: `metadata?.createdAt || null`. -/
def getCreatedAtHook (cfg : Config) (w : World) (key : String) : Option Int :=
  match getItemMetadata cfg w key with
  | some m => if m.createdAt != 0 then some m.createdAt else none
  | none => none

/-- Ephemeral state of the cache hook (`useState` cells). -/
structure CacheState where
  isLoading : Bool
  error : Option String
  isStale : Bool
  deriving DecidableEq, Repr

/-- The synchronous head of `fetchData` up to the fetcher invocation:
`if (isLoading) return;` reads the `isLoading` value captured by the
`useCallback` closure at the last render (`snapshot`), while the
`setIsLoading(true); setError(null)` updates apply to the current state
(`st`).  `fetchCount` counts invocations of the caller-supplied fetcher. -/
def fetchDataStart (snapshot : CacheState) (st : CacheState) (fetchCount : Nat) :
    CacheState × Nat :=
  if snapshot.isLoading then (st, fetchCount)
  else ({ st with isLoading := true, error := none }, fetchCount + 1)

/-- Two `refetch()` calls in immediate succession: both run in the same
event-handler tick, so both use the closure created at the same render
(`renderState`), the second seeing the state left by the first. -/
def doubleRefetchCount (renderState : CacheState) : Nat :=
  let r1 := fetchDataStart renderState renderState 0
  let r2 := fetchDataStart renderState r1.1 r1.2
  r2.2

/-- The staleness effect of `useLocalStorageCache`:
`if (createdAt && data) setIsStale(Date.now() - createdAt > staleTime)`;
when the guard fails, `isStale` keeps its previous value. -/
def staleCheckEffect (now staleTime : Int) (createdAt : Option Int)
    (data : Option Jval) (isStale : Bool) : Bool :=
  let cT := optIntTruthy createdAt
  let dT := match data with
    | some v => jsTruthy v
    | none => false
  if cT && dT then decide (now - createdAt.getD 0 > staleTime) else isStale

/-- Modelled from the spec words of claim C8 (for comparison with the code):
"isStale = (now - createdAt) > staleTime when a value and its creation time
are both known, else false". -/
def staleSpecRecompute (now staleTime : Int) (createdAt : Option Int)
    (data : Option Jval) : Bool :=
  match createdAt, data with
  | some c, some _ => decide (now - c > staleTime)
  | _, _ => false

/-- Default `cacheTime` of the cache hook (30 minutes), used as the TTL. -/
def cacheTimeDefault : Int := 30 * 60 * 1000

/-- The options `{autoEncrypt: true, secretKey: k}`. -/
def encOpts (k : String) : Options :=
  { autoEncrypt := some true, secretKey := some k }

/-! ### Lemmas about the raw store -/

theorem rawGet_rawSet_self (st : List (String × JStr)) (k : String) (v : JStr) :
    rawGet (rawSet st k v) k = some v := by
  induction st with
  | nil => simp [rawSet, rawGet]
  | cons p rest ih =>
    by_cases hp : p.1 = k
    · simp [rawSet, rawGet, hp]
    · simp [rawSet, rawGet, hp, ih]

theorem rawGet_rawSet_ne (st : List (String × JStr)) (k k' : String) (v : JStr)
    (h : k' ≠ k) : rawGet (rawSet st k v) k' = rawGet st k' := by
  induction st with
  | nil => simp [rawSet, rawGet, h.symm]
  | cons p rest ih =>
    by_cases hp : p.1 = k
    · simp [rawSet, rawGet, hp, h.symm]
    · by_cases hq : p.1 = k'
      · simp [rawSet, rawGet, hp, hq, h]
      · simp [rawSet, rawGet, hp, hq, ih]

theorem rawGet_rawRemove_self (st : List (String × JStr)) (k : String) :
    rawGet (rawRemove st k) k = none := by
  induction st with
  | nil => rfl
  | cons p rest ih =>
    by_cases hp : p.1 = k
    · simp [rawRemove, hp, ih]
    · simp [rawRemove, rawGet, hp, ih]

theorem rawGet_rawRemove_ne (st : List (String × JStr)) (k k' : String)
    (h : k' ≠ k) : rawGet (rawRemove st k) k' = rawGet st k' := by
  induction st with
  | nil => rfl
  | cons p rest ih =>
    by_cases hp : p.1 = k
    · have hq : p.1 ≠ k' := by
        rw [hp]; exact fun hh => h hh.symm
      simp [rawRemove, rawGet, hp, hq, ih, h.symm]
    · by_cases hq : p.1 = k'
      · simp [rawRemove, rawGet, hp, hq, h]
      · simp [rawRemove, rawGet, hp, hq, ih]

/-! ### Lemmas about the manager operations -/

theorem getItem_absent (cfg : Config) (w : World) (key : String) (opts : Options)
    (hget : rawGet w.store (getKey cfg key) = none) :
    getItem cfg w key opts = (none, w) := by
  unfold getItem
  cases hav : w.available with
  | false => simp [hav]
  | true => simp [hav, hget]

/-- Reading a plain (unencrypted, default-deserialized) envelope entry:
expired entries are deleted and yield `null`, others yield the payload. -/
theorem getItem_default_found (cfg : Config) (w : World) (key : String)
    (e : Envelope) (opts : Options) (hav : w.available = true)
    (hget : rawGet w.store (getKey cfg key) = some (.envJson e))
    (hde : opts.deserialize = none) (henc : isEncrypting opts = false) :
    getItem cfg w key opts =
      if isExpiredAt w.now e then (none, removeItem cfg w key)
      else (some e.value, w) := by
  unfold getItem
  rw [hav, hget]
  simp [isEmptyStr, decodeEnv, henc, effDeserialize, hde, jsonParseEnv]

/-- Reading a live (unexpired) plain entry returns its payload and leaves
the world unchanged. -/
theorem getItem_live (cfg : Config) (w : World) (key : String) (e : Envelope)
    (opts : Options) (hav : w.available = true)
    (hget : rawGet w.store (getKey cfg key) = some (.envJson e))
    (hde : opts.deserialize = none) (henc : isEncrypting opts = false)
    (hlive : isExpiredAt w.now e = false) :
    getItem cfg w key opts = (some e.value, w) := by
  rw [getItem_default_found cfg w key e opts hav hget hde henc, hlive]
  simp

/-- Reading an expired plain entry returns `null` and deletes it. -/
theorem getItem_dead (cfg : Config) (w : World) (key : String) (e : Envelope)
    (opts : Options) (hav : w.available = true)
    (hget : rawGet w.store (getKey cfg key) = some (.envJson e))
    (hde : opts.deserialize = none) (henc : isEncrypting opts = false)
    (hdead : isExpiredAt w.now e = true) :
    getItem cfg w key opts = (none, removeItem cfg w key) := by
  rw [getItem_default_found cfg w key e opts hav hget hde henc, hdead]
  simp

theorem removeItem_store (cfg : Config) (w : World) (key : String)
    (hav : w.available = true) :
    (removeItem cfg w key).store = rawRemove w.store (getKey cfg key) := by
  simp [removeItem, hav]

/-- A successful plain write: the envelope built at the current time is
stored under the prefixed key, and (`syncAcrossTabs` not being `false`) one
change event is dispatched whose `oldValue` is the result of re-reading the
key after the write — the new value, as long as the fresh envelope is not
already expired. -/
theorem setItem_plain (cfg : Config) (w : World) (key : String) (v : Jval)
    (opts : Options) (hav : w.available = true) (hsf : w.setFailure = none)
    (hser : opts.serialize = none) (henc : isEncrypting opts = false)
    (hsync : opts.syncAcrossTabs ≠ some false)
    (hexp : isExpiredAt w.now ⟨v, mkExpiresAt w.now opts.ttl, w.now, effVersion cfg opts⟩ = false) :
    setItem cfg w key v opts =
      (.ok, { w with
        store := rawSet w.store (getKey cfg key)
          (.envJson ⟨v, mkExpiresAt w.now opts.ttl, w.now, effVersion cfg opts⟩),
        events := w.events ++ [⟨key, v, some v⟩] }) := by
  have hsync' : (opts.syncAcrossTabs == some false) = false := by
    cases hs : opts.syncAcrossTabs with
    | none => rfl
    | some b =>
      cases b with
      | false => exact absurd hs hsync
      | true => rfl
  unfold setItem
  rw [hav, hsf]
  have hw1 : rawGet (rawSet w.store (getKey cfg key)
      (.envJson ⟨v, mkExpiresAt w.now opts.ttl, w.now, effVersion cfg opts⟩))
      (getKey cfg key)
      = some (.envJson ⟨v, mkExpiresAt w.now opts.ttl, w.now, effVersion cfg opts⟩) :=
    rawGet_rawSet_self _ _ _
  simp only [Bool.not_true, if_false, henc, Bool.false_eq_true, hsync',
    effSerialize, hser, Option.getD_none]
  have hgi := getItem_default_found cfg
    { available := true, now := w.now,
      store := rawSet w.store (getKey cfg key)
        (.envJson ⟨v, mkExpiresAt w.now opts.ttl, w.now, effVersion cfg opts⟩),
      setFailure := none, errors := w.errors, events := w.events }
    key ⟨v, mkExpiresAt w.now opts.ttl, w.now, effVersion cfg opts⟩ noOptions
    rfl hw1 rfl rfl
  rw [hgi]
  simp [hexp]

/-! ### Claim C1 -/

/-- Claim C1 (code bug): the dedup guard `if (isLoading) return;` reads the
`isLoading` value captured by the `useCallback` closure of the current
render, so two `refetch()` calls in immediate succession (same tick, hence
same closure with `isLoading = false`) both reach the fetcher: the fetch
count after the two calls is 2, not 1. -/
theorem cache_double_refetch_invokes_twice :
    doubleRefetchCount { isLoading := false, error := none, isStale := false } = 2 :=
  rfl

/-! ### Claim C3 -/

/-- Claim C3: after `setItem(key, v, {ttl: t})` with `t > 0`, an immediate
`getItem(key)` returns `v`; at any time `t'` past the write time plus `t`,
`getItem(key)` returns `null` and removes the stored entry as a side
effect of the read. -/
theorem ttl_set_get_expiry (cfg : Config) (w : World) (key : String) (v : Jval)
    (t t' : Int) (hav : w.available = true) (hsf : w.setFailure = none)
    (hnow : 0 ≤ w.now) (ht : 0 < t) (ht' : w.now + t < t') :
    (setItem cfg w key v { ttl := some t }).1 = .ok ∧
    (getItem cfg (setItem cfg w key v { ttl := some t }).2 key noOptions).1 = some v ∧
    (getItem cfg { (setItem cfg w key v { ttl := some t }).2 with now := t' }
      key noOptions).1 = none ∧
    rawGet (getItem cfg { (setItem cfg w key v { ttl := some t }).2 with now := t' }
      key noOptions).2.store (getKey cfg key) = none := by
  have ht0 : t ≠ 0 := by omega
  have hmk : mkExpiresAt w.now (some t) = some (w.now + t) := by
    simp [mkExpiresAt, ht0]
  have hlive0 : ¬ (w.now > w.now + t) := by omega
  have hexp : isExpiredAt w.now
      ⟨v, mkExpiresAt w.now (some t), w.now,
        effVersion cfg { ttl := some t }⟩ = false := by
    simp [isExpiredAt, hmk, hlive0]
  have hset := setItem_plain cfg w key v { ttl := some t } hav hsf rfl rfl
    (by simp) hexp
  set e : Envelope :=
    ⟨v, mkExpiresAt w.now (some t), w.now, effVersion cfg { ttl := some t }⟩
    with he
  set S := (setItem cfg w key v { ttl := some t }).2 with hS
  have h2 : S = { w with
                  store := rawSet w.store (getKey cfg key) (.envJson e),
                  events := w.events ++ [⟨key, v, some v⟩] } := by
    rw [hS, hset]
  have hSav : S.available = true := by rw [h2]; exact hav
  have hSst : rawGet S.store (getKey cfg key) = some (.envJson e) := by
    rw [h2]; exact rawGet_rawSet_self _ _ _
  have hSnow : S.now = w.now := by rw [h2]
  have hdead : isExpiredAt t' e = true := by
    have h1 : w.now + t ≠ 0 := by omega
    have h2' : t' > w.now + t := ht'
    rw [he]
    simp [isExpiredAt, hmk, h1, h2']
  refine ⟨?_, ?_, ?_, ?_⟩
  · rw [hset]
  · rw [getItem_live cfg S key e noOptions hSav hSst rfl rfl
      (by rw [hSnow]; exact hexp)]
  · rw [getItem_dead cfg { S with now := t' } key e noOptions hSav hSst rfl rfl hdead]
  · rw [getItem_dead cfg { S with now := t' } key e noOptions hSav hSst rfl rfl hdead,
      removeItem_store cfg { S with now := t' } key hSav]
    exact rawGet_rawRemove_self _ _

/-- Closed witness for C3: a concrete write with `ttl = 50` at time 100,
read back at times 100 and 151. -/
def wEx : World :=
  { available := true, now := 100, store := [], setFailure := none,
    errors := [], events := [] }

theorem ttl_set_get_expiry_witness :
    (setItem defaultConfig wEx "k" (.jnum 7) { ttl := some 50 }).1 = .ok ∧
    (getItem defaultConfig (setItem defaultConfig wEx "k" (.jnum 7) { ttl := some 50 }).2
      "k" noOptions).1 = some (.jnum 7) ∧
    (getItem defaultConfig
      { (setItem defaultConfig wEx "k" (.jnum 7) { ttl := some 50 }).2 with now := 151 }
      "k" noOptions).1 = none ∧
    rawGet (getItem defaultConfig
      { (setItem defaultConfig wEx "k" (.jnum 7) { ttl := some 50 }).2 with now := 151 }
      "k" noOptions).2.store (getKey defaultConfig "k") = none :=
  ttl_set_get_expiry defaultConfig wEx "k" (.jnum 7) 50 151 rfl rfl
    (by decide) (by decide) (by decide)

/-! ### Claim C10 -/

/-- Claim C10: a `ttl` of `0` (or an absent `ttl`) is falsy, so `setItem`
stores `expiresAt = null`; and a stored `expiresAt` of `null` or `0` is
falsy in the expiry check, so such an entry is returned unchanged by
`getItem` at every later time and is never deleted by the expiration
check. -/
theorem falsy_ttl_never_expires (cfg : Config) (w : World) (key : String)
    (v : Jval) (ttlv : Option Int) (t' : Int)
    (w2 : World) (k2 : String) (e0 : Envelope)
    (hav : w.available = true) (hsf : w.setFailure = none)
    (httl : ttlv = none ∨ ttlv = some 0)
    (hav2 : w2.available = true)
    (hget2 : rawGet w2.store (getKey cfg k2) = some (.envJson e0))
    (hexp0 : e0.expiresAt = some 0) :
    rawGet (setItem cfg w key v { ttl := ttlv }).2.store (getKey cfg key)
      = some (.envJson ⟨v, none, w.now, cfg.version⟩) ∧
    (getItem cfg { (setItem cfg w key v { ttl := ttlv }).2 with now := t' }
      key noOptions).1 = some v ∧
    (getItem cfg { (setItem cfg w key v { ttl := ttlv }).2 with now := t' }
      key noOptions).2.store = (setItem cfg w key v { ttl := ttlv }).2.store ∧
    (getItem cfg w2 k2 noOptions).1 = some e0.value ∧
    (getItem cfg w2 k2 noOptions).2 = w2 := by
  have hmk : mkExpiresAt w.now ttlv = none := by
    rcases httl with h | h <;> simp [mkExpiresAt, h]
  have hver : effVersion cfg { ttl := ttlv } = cfg.version := rfl
  have hset := setItem_plain cfg w key v { ttl := ttlv } hav hsf rfl rfl
    (by simp) (by rw [hmk]; rfl)
  rw [hmk, hver] at hset
  set e : Envelope := ⟨v, none, w.now, cfg.version⟩ with he
  set S := (setItem cfg w key v { ttl := ttlv }).2 with hS
  have h2 : S = { w with
                  store := rawSet w.store (getKey cfg key) (.envJson e),
                  events := w.events ++ [⟨key, v, some v⟩] } := by
    rw [hS, hset]
  have hSav : S.available = true := by rw [h2]; exact hav
  have hSst : rawGet S.store (getKey cfg key) = some (.envJson e) := by
    rw [h2]; exact rawGet_rawSet_self _ _ _
  have hlive : isExpiredAt t' e = false := by rw [he]; rfl
  have hlive2 : isExpiredAt w2.now e0 = false := by
    simp [isExpiredAt, hexp0]
  refine ⟨?_, ?_, ?_, ?_, ?_⟩
  · rw [h2]; exact rawGet_rawSet_self _ _ _
  · rw [getItem_live cfg { S with now := t' } key e noOptions hSav hSst rfl rfl hlive]
  · rw [getItem_live cfg { S with now := t' } key e noOptions hSav hSst rfl rfl hlive]
  · rw [getItem_live cfg w2 k2 e0 noOptions hav2 hget2 rfl rfl hlive2]
  · rw [getItem_live cfg w2 k2 e0 noOptions hav2 hget2 rfl rfl hlive2]

/-- Closed witness for C10: `ttl = 0` at time 100, read back at time
1000000; plus a hand-stored entry with `expiresAt = 0`. -/
def wZero : World :=
  { available := true, now := 999,
    store := [("z", .envJson ⟨.jstr "keep", some 0, 1, "1.0.0"⟩)],
    setFailure := none, errors := [], events := [] }

theorem falsy_ttl_never_expires_witness :
    rawGet (setItem defaultConfig wEx "k" (.jnum 7) { ttl := some 0 }).2.store
      (getKey defaultConfig "k")
      = some (.envJson ⟨.jnum 7, none, 100, "1.0.0"⟩) ∧
    (getItem defaultConfig
      { (setItem defaultConfig wEx "k" (.jnum 7) { ttl := some 0 }).2 with now := 1000000 }
      "k" noOptions).1 = some (.jnum 7) ∧
    (getItem defaultConfig
      { (setItem defaultConfig wEx "k" (.jnum 7) { ttl := some 0 }).2 with now := 1000000 }
      "k" noOptions).2.store
      = (setItem defaultConfig wEx "k" (.jnum 7) { ttl := some 0 }).2.store ∧
    (getItem defaultConfig wZero "z" noOptions).1
      = some (Envelope.value ⟨.jstr "keep", some 0, 1, "1.0.0"⟩) ∧
    (getItem defaultConfig wZero "z" noOptions).2 = wZero :=
  falsy_ttl_never_expires defaultConfig wEx "k" (.jnum 7) (some 0) 1000000
    wZero "z" ⟨.jstr "keep", some 0, 1, "1.0.0"⟩ rfl rfl (Or.inr rfl) rfl rfl rfl

/-! ### Claim C8 -/

theorem getItemMetadata_found (cfg : Config) (w : World) (key : String)
    (e : Envelope) (hav : w.available = true)
    (hget : rawGet w.store (getKey cfg key) = some (.envJson e)) :
    getItemMetadata cfg w key = some ⟨e.createdAt, e.expiresAt, e.version⟩ := by
  simp [getItemMetadata, hav, hget, isEmptyStr, jsonParseEnv]

/-- Claim C8 counterexample: with no cached value and no creation time but a
previously set `isStale = true` (the state `invalidate()` leaves behind),
the effect leaves `isStale` at `true`, while the claim's recompute rule
("... and as false otherwise") demands `false`. -/
theorem stale_recompute_spec_divergence :
    staleCheckEffect 0 10000 none none true = true ∧
    staleSpecRecompute 0 10000 none none = false :=
  ⟨rfl, rfl⟩

/-- Claim C8 (amended): the effect recomputes
`isStale = (now - createdAt) > staleTime` when the cached value and its
creation time are both known (truthy), and otherwise leaves `isStale`
unchanged (it is initially `false`).  In particular, through the real
write/metadata pipeline with `staleTime = 10000`, a value cached at `T0`
is not stale at `T0 + 9999` and is stale at `T0 + 10001`. -/
theorem stale_recompute_behavior (cfg : Config) (w : World) (key : String)
    (v : Jval) (s s2 : Bool) (now2 st2 : Int) (cA2 : Option Int)
    (hav : w.available = true) (hsf : w.setFailure = none)
    (ht : jsTruthy v = true) (hc : 0 < w.now) :
    staleCheckEffect (w.now + 9999) 10000
      (getCreatedAtHook cfg (setItem cfg w key v { ttl := some cacheTimeDefault }).2 key)
      (some v) s = false ∧
    staleCheckEffect (w.now + 10001) 10000
      (getCreatedAtHook cfg (setItem cfg w key v { ttl := some cacheTimeDefault }).2 key)
      (some v) s = true ∧
    staleCheckEffect now2 st2 cA2 none s2 = s2 := by
  have hctd : (cacheTimeDefault : Int) ≠ 0 := by norm_num [cacheTimeDefault]
  have hpos : (0 : Int) < cacheTimeDefault := by norm_num [cacheTimeDefault]
  have hmk : mkExpiresAt w.now (some cacheTimeDefault)
      = some (w.now + cacheTimeDefault) := by
    simp [mkExpiresAt, hctd]
  have hlive0 : ¬ (w.now > w.now + cacheTimeDefault) := by omega
  have hexp : isExpiredAt w.now
      ⟨v, mkExpiresAt w.now (some cacheTimeDefault), w.now,
        effVersion cfg { ttl := some cacheTimeDefault }⟩ = false := by
    simp [isExpiredAt, hmk, hlive0]
  have hset := setItem_plain cfg w key v { ttl := some cacheTimeDefault }
    hav hsf rfl rfl (by simp) hexp
  set e : Envelope :=
    ⟨v, mkExpiresAt w.now (some cacheTimeDefault), w.now,
      effVersion cfg { ttl := some cacheTimeDefault }⟩ with he
  set S := (setItem cfg w key v { ttl := some cacheTimeDefault }).2 with hS
  have h2 : S = { w with
                  store := rawSet w.store (getKey cfg key) (.envJson e),
                  events := w.events ++ [⟨key, v, some v⟩] } := by
    rw [hS, hset]
  have hSav : S.available = true := by rw [h2]; exact hav
  have hSst : rawGet S.store (getKey cfg key) = some (.envJson e) := by
    rw [h2]; exact rawGet_rawSet_self _ _ _
  have hmeta := getItemMetadata_found cfg S key e hSav hSst
  have hn0 : (w.now != 0) = true := by
    have : w.now ≠ 0 := by omega
    simpa using this
  have hcreated : getCreatedAtHook cfg S key = some w.now := by
    simp [getCreatedAtHook, hmeta, he, hn0]
  have hnot : ¬ ((w.now + 9999) - w.now > 10000) := by omega
  have hyes : (w.now + 10001) - w.now > 10000 := by omega
  refine ⟨?_, ?_, ?_⟩
  · simp [staleCheckEffect, hcreated, optIntTruthy, hn0, ht, hnot]
  · simp [staleCheckEffect, hcreated, optIntTruthy, hn0, ht, hyes]
  · simp [staleCheckEffect]

/-- Closed witness for C8: write the (truthy) value 1 at time 100 and run
the staleness effect at times 10099 and 10101; plus the unchanged case. -/
theorem stale_recompute_behavior_witness :
    staleCheckEffect (100 + 9999) 10000
      (getCreatedAtHook defaultConfig
        (setItem defaultConfig wEx "k" (.jnum 1) { ttl := some cacheTimeDefault }).2 "k")
      (some (.jnum 1)) true = false ∧
    staleCheckEffect (100 + 10001) 10000
      (getCreatedAtHook defaultConfig
        (setItem defaultConfig wEx "k" (.jnum 1) { ttl := some cacheTimeDefault }).2 "k")
      (some (.jnum 1)) true = true ∧
    staleCheckEffect 0 0 (some 5) none true = true :=
  stale_recompute_behavior defaultConfig wEx "k" (.jnum 1) true true 0 0 (some 5)
    rfl rfl (by decide) (by decide)

/-! ### Claim C4 -/

/-- World in which "k" already holds the value 1 (written at time 50). -/
def wPrev : World :=
  { available := true, now := 100,
    store := [("k", .envJson ⟨.jnum 1, none, 50, "1.0.0"⟩)],
    setFailure := none, errors := [], events := [] }

/-- Claim C4 counterexample: with "k" previously holding 1, writing 2
dispatches an event whose `oldValue` is the newly written 2 — the source
passes `this.getItem(key)` evaluated AFTER the write — and not the
pre-write value 1 the claim promises. -/
theorem dispatch_oldValue_not_prewrite :
    (getItem defaultConfig wPrev "k" noOptions).1 = some (.jnum 1) ∧
    (setItem defaultConfig wPrev "k" (.jnum 2) noOptions).2.events
      = [⟨"k", .jnum 2, some (.jnum 2)⟩] ∧
    (some (Jval.jnum 2) ≠ some (Jval.jnum 1)) := by
  refine ⟨rfl, rfl, ?_⟩
  intro h
  injection h with h1
  injection h1 with h2
  exact absurd h2 (by decide)

/-- Claim C4 (amended): after every successful plain `setItem` with
`syncAcrossTabs` not `false`, exactly one `localStorageChange` event is
dispatched synchronously, carrying the key, the new value as `newValue`,
and as `oldValue` the result of re-reading the key through `getItem`
(default options) after the write — which for a plain unexpired write is
the new value itself, not the pre-write value. -/
theorem dispatch_event_payload (cfg : Config) (w : World) (key : String)
    (v : Jval) (opts : Options)
    (hav : w.available = true) (hsf : w.setFailure = none)
    (hser : opts.serialize = none) (henc : isEncrypting opts = false)
    (hsync : opts.syncAcrossTabs ≠ some false)
    (hexp : isExpiredAt w.now
      ⟨v, mkExpiresAt w.now opts.ttl, w.now, effVersion cfg opts⟩ = false) :
    (setItem cfg w key v opts).1 = .ok ∧
    (setItem cfg w key v opts).2.events = w.events ++ [⟨key, v, some v⟩] := by
  rw [setItem_plain cfg w key v opts hav hsf hser henc hsync hexp]
  exact ⟨rfl, rfl⟩

/-- Closed witness for the amended C4 at a concrete plain write. -/
theorem dispatch_event_payload_witness :
    (setItem defaultConfig wPrev "k" (.jnum 2) noOptions).1 = .ok ∧
    (setItem defaultConfig wPrev "k" (.jnum 2) noOptions).2.events
      = wPrev.events ++ [⟨"k", .jnum 2, some (.jnum 2)⟩] :=
  dispatch_event_payload defaultConfig wPrev "k" (.jnum 2) noOptions
    rfl rfl rfl rfl (by decide) rfl

/-! ### Claim C5 -/

/-- Claim C5: when the raw store's `set` throws a `QuotaExceededError`,
`setItem` returns `false`, the error callback is invoked exactly once with
a `QUOTA_EXCEEDED` error, nothing is thrown (the model is total), the raw
store is untouched, and the base hook's `setValue` leaves the in-memory
mirror unchanged. -/
theorem quota_failure_behavior (cfg : Config) (w : World) (key : String)
    (mirror v : Jval) (opts : Options)
    (hav : w.available = true) (hsf : w.setFailure = some "QuotaExceededError") :
    (setItem cfg w key v opts).1 = .failed ∧
    (setItem cfg w key v opts).2.errors = w.errors ++ [.quotaExceeded] ∧
    (setItem cfg w key v opts).2.store = w.store ∧
    (setValueHook cfg w key opts mirror v).2 = mirror ∧
    (setValueHook cfg w key opts mirror v).1.store = w.store := by
  have hset : setItem cfg w key v opts
      = (.failed, { w with errors := w.errors ++ [.quotaExceeded] }) := by
    unfold setItem
    rw [hav, hsf]
    simp
  refine ⟨?_, ?_, ?_, ?_, ?_⟩
  · rw [hset]
  · rw [hset]
  · rw [hset]
  · unfold setValueHook
    rw [hset]
  · unfold setValueHook
    rw [hset]

/-- World whose raw `set` throws `QuotaExceededError`, with "k" already
holding a prior value. -/
def wQ : World :=
  { available := true, now := 100,
    store := [("k", .envJson ⟨.jstr "old", none, 1, "1.0.0"⟩)],
    setFailure := some "QuotaExceededError", errors := [], events := [] }

/-! ### Claim C2 -/

/-- Reading an entry whose decode pipeline fails routes one
`DESERIALIZATION_ERROR` through the error callback and returns `null`
(without throwing: the function is total). -/
theorem getItem_badDecode (cfg : Config) (w : World) (key : String)
    (s : JStr) (opts : Options) (hav : w.available = true)
    (hget : rawGet w.store (getKey cfg key) = some s)
    (hne : isEmptyStr s = false) (hbad : decodeEnv opts s = none) :
    getItem cfg w key opts
      = (none, { w with errors := w.errors ++ [.deserializationError] }) := by
  unfold getItem
  rw [hav, hget]
  simp [hne, hbad]

/-- Reading a live ciphertext entry with the matching secret key: decrypt,
deserialize with the default deserializer, return the payload. -/
theorem getItem_enc_found (cfg : Config) (w : World) (key : String)
    (e : Envelope) (k : String) (hav : w.available = true)
    (hget : rawGet w.store (getKey cfg key) = some (.aes (.envJson e) k))
    (hk : k ≠ "") (hlive : isExpiredAt w.now e = false) :
    getItem cfg w key (encOpts k) = (some e.value, w) := by
  have hienc : isEncrypting (encOpts k) = true := by
    simp [isEncrypting, encOpts, optStrTruthy, hk]
  have hsk : (encOpts k).secretKey.getD "" = k := rfl
  have hdes : effDeserialize (encOpts k) = jsonParseEnv := rfl
  unfold getItem
  rw [hav, hget]
  simp [isEmptyStr, decodeEnv, hienc, hsk, hdes, decryptJStr,
    jsonParseEnv, hlive]

/-- A write with `{autoEncrypt: true, secretKey: k}` (no TTL): the stored
bytes are the ciphertext of the serialized envelope, never the plaintext.
The event dispatch re-reads the key with DEFAULT options, fails to
`JSON.parse` the ciphertext, and therefore logs one
`DESERIALIZATION_ERROR` and puts `oldValue = null` in the event. -/
theorem setItem_enc (cfg : Config) (w : World) (key : String) (v : Jval)
    (k : String) (hav : w.available = true) (hsf : w.setFailure = none)
    (hk : k ≠ "") :
    setItem cfg w key v (encOpts k) =
      (.ok, { w with
              store := rawSet w.store (getKey cfg key)
                (.aes (.envJson ⟨v, none, w.now, cfg.version⟩) k),
              errors := w.errors ++ [.deserializationError],
              events := w.events ++ [⟨key, v, none⟩] }) := by
  have hienc : isEncrypting (encOpts k) = true := by
    simp [isEncrypting, encOpts, optStrTruthy, hk]
  unfold setItem
  rw [hav, hsf]
  simp only [Bool.not_true, if_false, hienc, if_true, Bool.false_eq_true,
    (show effSerialize (encOpts k) = JStr.envJson from rfl),
    (show mkExpiresAt w.now (encOpts k).ttl = none from rfl),
    (show effVersion cfg (encOpts k) = cfg.version from rfl),
    (show (encOpts k).secretKey.getD "" = k from rfl),
    (show ((encOpts k).syncAcrossTabs == some false) = false from rfl)]
  have hw1 : rawGet (rawSet w.store (getKey cfg key)
      (.aes (.envJson ⟨v, none, w.now, cfg.version⟩) k)) (getKey cfg key)
      = some (.aes (.envJson ⟨v, none, w.now, cfg.version⟩) k) :=
    rawGet_rawSet_self _ _ _
  have hgi := getItem_badDecode cfg
    { available := true, now := w.now,
      store := rawSet w.store (getKey cfg key)
        (.aes (.envJson ⟨v, none, w.now, cfg.version⟩) k),
      setFailure := none, errors := w.errors, events := w.events }
    key (.aes (.envJson ⟨v, none, w.now, cfg.version⟩) k) noOptions
    rfl hw1 rfl rfl
  rw [hgi]

/-- Claim C2: encryption round-trip and failure modes.  Writing with
`{autoEncrypt: true, secretKey: k}` then reading with the same `k` returns
the payload at any later time; reading the same stored ciphertext with a
different key, or reading a corrupted (non-ciphertext) string, returns
`null` and routes exactly one `DESERIALIZATION_ERROR` through the error
callback.  Totality of `getItem` models "never throws to the caller". -/
theorem encrypt_roundtrip_and_failure (cfg : Config) (w : World) (key : String)
    (p : Jval) (k k' : String) (t' : Int)
    (w3 : World) (k3 : String) (c : String) (ks : String)
    (hav : w.available = true) (hsf : w.setFailure = none)
    (hk : k ≠ "") (hkk : k' ≠ k)
    (hav3 : w3.available = true)
    (hget3 : rawGet w3.store (getKey cfg k3) = some (.lit c)) (hc : c ≠ "") :
    (setItem cfg w key p (encOpts k)).1 = .ok ∧
    (getItem cfg { (setItem cfg w key p (encOpts k)).2 with now := t' }
      key (encOpts k)).1 = some p ∧
    (getItem cfg (setItem cfg w key p (encOpts k)).2 key (encOpts k')).1 = none ∧
    (getItem cfg (setItem cfg w key p (encOpts k)).2 key (encOpts k')).2.errors
      = (setItem cfg w key p (encOpts k)).2.errors ++ [.deserializationError] ∧
    (getItem cfg w3 k3 (encOpts ks)).1 = none ∧
    (getItem cfg w3 k3 (encOpts ks)).2.errors
      = w3.errors ++ [.deserializationError] := by
  have hset := setItem_enc cfg w key p k hav hsf hk
  set e : Envelope := ⟨p, none, w.now, cfg.version⟩ with he
  set S := (setItem cfg w key p (encOpts k)).2 with hS
  have h2 : S = { w with
                  store := rawSet w.store (getKey cfg key)
                    (.aes (.envJson e) k),
                  errors := w.errors ++ [.deserializationError],
                  events := w.events ++ [⟨key, p, none⟩] } := by
    rw [hS, hset]
  have hSav : S.available = true := by rw [h2]; exact hav
  have hSst : rawGet S.store (getKey cfg key) = some (.aes (.envJson e) k) := by
    rw [h2]; exact rawGet_rawSet_self _ _ _
  have hne : isEmptyStr (.aes (.envJson e) k) = false := rfl
  have hbadk' : decodeEnv (encOpts k') (.aes (.envJson e) k) = none := by
    have hkne : (k == k') = false := by
      simp [Ne.symm hkk]
    by_cases h0 : k' = ""
    · simp [decodeEnv, isEncrypting, encOpts, optStrTruthy, h0,
        effDeserialize, jsonParseEnv]
    · simp [decodeEnv, isEncrypting, encOpts, optStrTruthy, h0,
        decryptJStr, hkne]
  have hbadc : decodeEnv (encOpts ks) (.lit c) = none := by
    by_cases h0 : ks = ""
    · simp [decodeEnv, isEncrypting, encOpts, optStrTruthy, h0,
        effDeserialize, jsonParseEnv]
    · simp [decodeEnv, isEncrypting, encOpts, optStrTruthy, h0, decryptJStr]
  have hnec : isEmptyStr (.lit c) = false := by
    simp [isEmptyStr, hc]
  refine ⟨?_, ?_, ?_, ?_, ?_, ?_⟩
  · rw [hset]
  · rw [getItem_enc_found cfg { S with now := t' } key e k hSav hSst hk rfl]
  · rw [getItem_badDecode cfg S key (.aes (.envJson e) k) (encOpts k')
      hSav hSst hne hbadk']
  · rw [getItem_badDecode cfg S key (.aes (.envJson e) k) (encOpts k')
      hSav hSst hne hbadk']
  · rw [getItem_badDecode cfg w3 k3 (.lit c) (encOpts ks) hav3 hget3 hnec hbadc]
  · rw [getItem_badDecode cfg w3 k3 (.lit c) (encOpts ks) hav3 hget3 hnec hbadc]

/-- World holding a corrupted (non-ciphertext, non-JSON) string under "c". -/
def wCorrupt : World :=
  { available := true, now := 100,
    store := [("c", .lit "garbage")],
    setFailure := none, errors := [], events := [] }

theorem encrypt_roundtrip_and_failure_witness :
    (setItem defaultConfig wEx "k" (.jstr "p") (encOpts "s")).1 = .ok ∧
    (getItem defaultConfig
      { (setItem defaultConfig wEx "k" (.jstr "p") (encOpts "s")).2 with now := 999 }
      "k" (encOpts "s")).1 = some (.jstr "p") ∧
    (getItem defaultConfig (setItem defaultConfig wEx "k" (.jstr "p") (encOpts "s")).2
      "k" (encOpts "wrong")).1 = none ∧
    (getItem defaultConfig (setItem defaultConfig wEx "k" (.jstr "p") (encOpts "s")).2
      "k" (encOpts "wrong")).2.errors
      = (setItem defaultConfig wEx "k" (.jstr "p") (encOpts "s")).2.errors
        ++ [.deserializationError] ∧
    (getItem defaultConfig wCorrupt "c" (encOpts "s")).1 = none ∧
    (getItem defaultConfig wCorrupt "c" (encOpts "s")).2.errors
      = wCorrupt.errors ++ [.deserializationError] :=
  encrypt_roundtrip_and_failure defaultConfig wEx "k" (.jstr "p") "s" "wrong"
    999 wCorrupt "c" "garbage" "s" rfl rfl (by decide) (by decide) rfl rfl
    (by decide)

theorem quota_failure_behavior_witness :
    (setItem defaultConfig wQ "k" (.jstr "new") noOptions).1 = .failed ∧
    (setItem defaultConfig wQ "k" (.jstr "new") noOptions).2.errors
      = wQ.errors ++ [.quotaExceeded] ∧
    (setItem defaultConfig wQ "k" (.jstr "new") noOptions).2.store = wQ.store ∧
    (setValueHook defaultConfig wQ "k" noOptions (.jstr "old") (.jstr "new")).2
      = .jstr "old" ∧
    (setValueHook defaultConfig wQ "k" noOptions (.jstr "old") (.jstr "new")).1.store
      = wQ.store :=
  quota_failure_behavior defaultConfig wQ "k" (.jstr "old") (.jstr "new")
    noOptions rfl rfl

/-! ### Claim C6 -/

/-- Options `{serialize: ser, deserialize: de}`. -/
def customOpts (ser : Envelope → JStr) (de : JStr → Option Envelope) : Options :=
  { serialize := some ser, deserialize := some de }

/-- Transposition on envelopes used by the C6 counterexample: it swaps the
no-TTL envelope created at time 100 with an already-expired twin
(`expiresAt = 1`), and fixes every other envelope.  An involution, hence
injective. -/
def swapEnv (e : Envelope) : Envelope :=
  if e.expiresAt = none ∧ e.createdAt = 100 ∧ e.version = "1.0.0" then
    { e with expiresAt := some 1 }
  else if e.expiresAt = some 1 ∧ e.createdAt = 100 ∧ e.version = "1.0.0" then
    { e with expiresAt := none }
  else e

/-- The counterexample serializer: a disguised but faithfully invertible
encoding of the envelope. -/
def serAdv (e : Envelope) : JStr := .envJson (swapEnv e)

/-- Its exact inverse deserializer. -/
def deAdv : JStr → Option Envelope
  | .envJson e => some (swapEnv e)
  | _ => none

theorem swapEnv_invol (e : Envelope) : swapEnv (swapEnv e) = e := by
  obtain ⟨val, ex, cr, ver⟩ := e
  by_cases h1 : ex = none ∧ cr = 100 ∧ ver = "1.0.0"
  · obtain ⟨hx, hc, hv⟩ := h1
    subst hx; subst hc; subst hv
    simp [swapEnv]
  · by_cases h2 : ex = some 1 ∧ cr = 100 ∧ ver = "1.0.0"
    · obtain ⟨hx, hc, hv⟩ := h2
      subst hx; subst hc; subst hv
      simp [swapEnv]
    · simp [swapEnv, h1, h2]

/-- `serAdv`/`deAdv` satisfy the claim's round-trip law on every envelope. -/
theorem deAdv_serAdv (e : Envelope) : deAdv (serAdv e) = some e := by
  simp [serAdv, deAdv, swapEnv_invol]

/-- Claim C6, formalized as stated: EVERY round-tripping
serializer/deserializer pair makes a no-TTL write readable unchanged at
any later time. -/
def claimC6 : Prop :=
  ∀ (cfg : Config) (ser : Envelope → JStr) (de : JStr → Option Envelope),
    (∀ e, de (ser e) = some e) →
    ∀ (w : World) (key : String) (v : Jval) (t' : Int),
      w.available = true → w.setFailure = none →
      (getItem cfg
        { (setItem cfg w key v (customOpts ser de)).2 with now := t' }
        key (customOpts ser de)).1 = some v

/-- Claim C6 counterexample: `serAdv`/`deAdv` round-trip, yet the no-TTL
write of `"x"` at time 100 through them is destroyed by the write's own
event dispatch: the dispatched re-read uses the DEFAULT deserializer, sees
the disguised envelope with `expiresAt = 1 < 100`, deletes the entry, and
the subsequent `getItem` with the matching custom pair returns `null`. -/
theorem claimC6_false : ¬ claimC6 := by
  intro h
  have hbad := h defaultConfig serAdv deAdv deAdv_serAdv wEx "k" (.jstr "x")
    100 rfl rfl
  have hval : (getItem defaultConfig
      { (setItem defaultConfig wEx "k" (.jstr "x") (customOpts serAdv deAdv)).2
        with now := 100 }
      "k" (customOpts serAdv deAdv)).1 = none := rfl
  rw [hval] at hbad
  exact Option.noConfusion hbad

/-- `getItem` leaves the store (and availability) alone when the stored
string either fails the default parse or parses to an unexpired envelope
(no expiry-triggered delete can fire). -/
theorem getItem_store_frame (cfg : Config) (w : World) (key : String)
    (s : JStr)
    (hget : rawGet w.store (getKey cfg key) = some s)
    (hsafe : ∀ d, jsonParseEnv s = some d → isExpiredAt w.now d = false) :
    (getItem cfg w key noOptions).2.store = w.store ∧
    (getItem cfg w key noOptions).2.available = w.available := by
  unfold getItem
  cases hav : w.available with
  | false => simp [hav]
  | true =>
    simp only [hav, Bool.not_true, if_false, hget]
    by_cases hes : isEmptyStr s
    · simp [hes, hav]
    · cases hp : jsonParseEnv s with
      | none =>
        simp [hes, hav, decodeEnv,
          (show isEncrypting noOptions = false from rfl),
          (show effDeserialize noOptions = jsonParseEnv from rfl), hp]
      | some d =>
        have hl := hsafe d hp
        simp [hes, hav, decodeEnv,
          (show isEncrypting noOptions = false from rfl),
          (show effDeserialize noOptions = jsonParseEnv from rfl), hp, hl]

/-- Reading an entry through a matching custom serializer pair. -/
theorem getItem_custom_found (cfg : Config) (w : World) (key : String)
    (ser : Envelope → JStr) (de : JStr → Option Envelope) (e : Envelope)
    (hav : w.available = true)
    (hget : rawGet w.store (getKey cfg key) = some (ser e))
    (hne : isEmptyStr (ser e) = false)
    (hrt : de (ser e) = some e)
    (hlive : isExpiredAt w.now e = false) :
    getItem cfg w key (customOpts ser de) = (some e.value, w) := by
  unfold getItem
  rw [hav, hget]
  simp [hne, decodeEnv,
    (show isEncrypting (customOpts ser de) = false from rfl),
    (show effDeserialize (customOpts ser de) = de from rfl), hrt, hlive]

/-- Claim C6 (amended): for every round-tripping serializer pair whose
serialization of the written envelope is non-empty and does not decode,
under the DEFAULT `JSON.parse` deserializer used by the write's own event
dispatch, to an envelope that is already expired at write time, a no-TTL
write is read back unchanged (same pair, same key) at any later time.
The default JSON pair satisfies all three side conditions. -/
theorem no_ttl_roundtrip (cfg : Config) (w : World) (key : String) (v : Jval)
    (ser : Envelope → JStr) (de : JStr → Option Envelope) (t' : Int)
    (hav : w.available = true) (hsf : w.setFailure = none)
    (hrt : ∀ e, de (ser e) = some e)
    (hne : isEmptyStr (ser ⟨v, none, w.now, cfg.version⟩) = false)
    (hsafe : ∀ d, jsonParseEnv (ser ⟨v, none, w.now, cfg.version⟩) = some d →
      isExpiredAt w.now d = false) :
    (setItem cfg w key v (customOpts ser de)).1 = .ok ∧
    (getItem cfg { (setItem cfg w key v (customOpts ser de)).2 with now := t' }
      key (customOpts ser de)).1 = some v := by
  set env : Envelope := ⟨v, none, w.now, cfg.version⟩ with henv
  have hw1get : rawGet (rawSet w.store (getKey cfg key) (ser env))
      (getKey cfg key) = some (ser env) := rawGet_rawSet_self _ _ _
  have hframe := getItem_store_frame cfg
    { available := true, now := w.now,
      store := rawSet w.store (getKey cfg key) (ser env),
      setFailure := none, errors := w.errors, events := w.events }
    key (ser env) hw1get hsafe
  have hfst : (setItem cfg w key v (customOpts ser de)).1 = .ok := by
    unfold setItem
    rw [hav, hsf]
    simp only [Bool.not_true, if_false,
      (show isEncrypting (customOpts ser de) = false from rfl),
      Bool.false_eq_true,
      (show effSerialize (customOpts ser de) = ser from rfl),
      (show mkExpiresAt w.now (customOpts ser de).ttl = none from rfl),
      (show effVersion cfg (customOpts ser de) = cfg.version from rfl),
      (show ((customOpts ser de).syncAcrossTabs == some false) = false from rfl)]
  have hstore : (setItem cfg w key v (customOpts ser de)).2.store
      = rawSet w.store (getKey cfg key) (ser env) := by
    unfold setItem
    rw [hav, hsf]
    simp only [Bool.not_true, if_false,
      (show isEncrypting (customOpts ser de) = false from rfl),
      Bool.false_eq_true,
      (show effSerialize (customOpts ser de) = ser from rfl),
      (show mkExpiresAt w.now (customOpts ser de).ttl = none from rfl),
      (show effVersion cfg (customOpts ser de) = cfg.version from rfl),
      (show ((customOpts ser de).syncAcrossTabs == some false) = false from rfl)]
    exact hframe.1
  have havail : (setItem cfg w key v (customOpts ser de)).2.available = true := by
    unfold setItem
    rw [hav, hsf]
    simp only [Bool.not_true, if_false,
      (show isEncrypting (customOpts ser de) = false from rfl),
      Bool.false_eq_true,
      (show effSerialize (customOpts ser de) = ser from rfl),
      (show mkExpiresAt w.now (customOpts ser de).ttl = none from rfl),
      (show effVersion cfg (customOpts ser de) = cfg.version from rfl),
      (show ((customOpts ser de).syncAcrossTabs == some false) = false from rfl)]
    exact hframe.2
  refine ⟨hfst, ?_⟩
  have hW2av : ({ (setItem cfg w key v (customOpts ser de)).2 with now := t' }
      : World).available = true := havail
  have hW2get : rawGet ({ (setItem cfg w key v (customOpts ser de)).2 with
      now := t' } : World).store (getKey cfg key) = some (ser env) := by
    show rawGet (setItem cfg w key v (customOpts ser de)).2.store
      (getKey cfg key) = some (ser env)
    rw [hstore]
    exact hw1get
  rw [getItem_custom_found cfg
    { (setItem cfg w key v (customOpts ser de)).2 with now := t' }
    key ser de env hW2av hW2get hne (hrt env) rfl]

/-- Closed witness for the amended C6, instantiated at the default JSON
pair (`JSON.stringify` / `JSON.parse`). -/
theorem no_ttl_roundtrip_witness :
    (setItem defaultConfig wEx "k" (.jnum 5)
      (customOpts JStr.envJson jsonParseEnv)).1 = .ok ∧
    (getItem defaultConfig
      { (setItem defaultConfig wEx "k" (.jnum 5)
          (customOpts JStr.envJson jsonParseEnv)).2 with now := 424242 }
      "k" (customOpts JStr.envJson jsonParseEnv)).1 = some (.jnum 5) :=
  no_ttl_roundtrip defaultConfig wEx "k" (.jnum 5) JStr.envJson jsonParseEnv
    424242 rfl rfl (fun _ => rfl) rfl
    (fun d hd => by injection hd with h; exact h ▸ rfl)

/-! ### Claim C7 -/

theorem removeItem_now (cfg : Config) (w : World) (key : String) :
    (removeItem cfg w key).now = w.now := by
  unfold removeItem; split <;> rfl

theorem removeItem_available (cfg : Config) (w : World) (key : String) :
    (removeItem cfg w key).available = w.available := by
  unfold removeItem; split <;> rfl

/-- Whether the entry stored under `getKey cfg k` is a cleanup candidate
in world `w`: present, non-empty, and unparsable or expired. -/
def badAt (cfg : Config) (w : World) (k : String) : Bool :=
  match rawGet w.store (getKey cfg k) with
  | none => false
  | some s => !(isEmptyStr s) && badStr w.now s

theorem cleanupStep_keep (cfg : Config) (n : Nat) (w : World) (k : String)
    (h : badAt cfg w k = false) : cleanupStep cfg (n, w) k = (n, w) := by
  unfold badAt at h
  unfold cleanupStep
  cases hget : rawGet w.store (getKey cfg k) with
  | none => simp [hget]
  | some s =>
    rw [hget] at h
    by_cases hes : isEmptyStr s
    · simp [hget, hes]
    · cases hb : badStr w.now s with
      | true => simp [hes, hb] at h
      | false => simp [hget, hes, hb]

theorem cleanupStep_remove (cfg : Config) (n : Nat) (w : World) (k : String)
    (h : badAt cfg w k = true) :
    cleanupStep cfg (n, w) k = (n + 1, removeItem cfg w k) := by
  unfold badAt at h
  unfold cleanupStep
  cases hget : rawGet w.store (getKey cfg k) with
  | none => rw [hget] at h; exact absurd h (by simp)
  | some s =>
    rw [hget] at h
    have hes : isEmptyStr s = false := by
      cases hes : isEmptyStr s
      · rfl
      · simp [hes] at h
    have hb : badStr w.now s = true := by
      cases hb : badStr w.now s
      · simp [hb] at h
      · rfl
    simp [hget, hes, hb]

theorem badAt_congr (cfg : Config) (w w' : World) (k : String)
    (hst : rawGet w'.store (getKey cfg k) = rawGet w.store (getKey cfg k))
    (hnow : w'.now = w.now) : badAt cfg w' k = badAt cfg w k := by
  unfold badAt
  rw [hst, hnow]

theorem countP_congrB {α : Type} (l : List α) (p q : α → Bool)
    (h : ∀ a ∈ l, p a = q a) : l.countP p = l.countP q := by
  induction l with
  | nil => rfl
  | cons a l ih =>
    rw [List.countP_cons, List.countP_cons, h a (List.mem_cons_self a l),
      ih (fun b hb => h b (List.mem_cons_of_mem a hb))]

/-- Invariant of the `cleanupExpiredItems` loop: starting from counter `n`
and world `w`, folding the per-key step over distinct (re-prefixed) keys
adds one to the counter for exactly the bad entries, deletes exactly those
entries, and leaves every other raw key untouched. -/
theorem cleanup_fold_spec (cfg : Config) (ks : List String) :
    ∀ (n : Nat) (w : World), w.available = true →
      (ks.map (fun k => getKey cfg k)).Nodup →
      ((ks.foldl (cleanupStep cfg) (n, w)).1
          = n + ks.countP (fun k => badAt cfg w k)) ∧
      ((ks.foldl (cleanupStep cfg) (n, w)).2.available = true) ∧
      (∀ fk, fk ∉ ks.map (fun k => getKey cfg k) →
        rawGet (ks.foldl (cleanupStep cfg) (n, w)).2.store fk
          = rawGet w.store fk) ∧
      (∀ k ∈ ks, rawGet (ks.foldl (cleanupStep cfg) (n, w)).2.store (getKey cfg k)
          = if badAt cfg w k then none else rawGet w.store (getKey cfg k)) := by
  induction ks with
  | nil =>
    intro n w hav hnd
    exact ⟨by simp, hav, fun fk _ => rfl, fun k hk => absurd hk (List.not_mem_nil k)⟩
  | cons k0 ks ih =>
    intro n w hav hnd
    rw [List.map_cons, List.nodup_cons] at hnd
    obtain ⟨hk0nm, hndt⟩ := hnd
    rw [List.foldl_cons]
    cases hbad0 : badAt cfg w k0 with
    | false =>
      rw [cleanupStep_keep cfg n w k0 hbad0]
      obtain ⟨ih1, ih2, ih3, ih4⟩ := ih n w hav hndt
      refine ⟨?_, ih2, ?_, ?_⟩
      · rw [ih1, List.countP_cons, hbad0]
        simp
      · intro fk hfk
        refine ih3 fk (fun hm => hfk ?_)
        rw [List.map_cons]
        exact List.mem_cons_of_mem _ hm
      · intro k hk
        rcases List.mem_cons.mp hk with rfl | hk'
        · rw [hbad0, if_neg (by simp)]
          exact ih3 (getKey cfg k) hk0nm
        · exact ih4 k hk'
    | true =>
      rw [cleanupStep_remove cfg n w k0 hbad0]
      have hw1store : (removeItem cfg w k0).store
          = rawRemove w.store (getKey cfg k0) := removeItem_store cfg w k0 hav
      have hw1av : (removeItem cfg w k0).available = true := by
        rw [removeItem_available]; exact hav
      have hw1now : (removeItem cfg w k0).now = w.now := removeItem_now cfg w k0
      have hframe : ∀ fk, fk ≠ getKey cfg k0 →
          rawGet (removeItem cfg w k0).store fk = rawGet w.store fk := by
        intro fk hfk
        rw [hw1store]
        exact rawGet_rawRemove_ne _ _ _ hfk
      have hnemap : ∀ k ∈ ks, getKey cfg k ≠ getKey cfg k0 := by
        intro k hk he
        exact hk0nm (he ▸ List.mem_map_of_mem (fun k => getKey cfg k) hk)
      have hbadeq : ∀ k ∈ ks, badAt cfg (removeItem cfg w k0) k = badAt cfg w k :=
        fun k hk => badAt_congr cfg w _ k (hframe _ (hnemap k hk)) hw1now
      obtain ⟨ih1, ih2, ih3, ih4⟩ := ih (n + 1) (removeItem cfg w k0) hw1av hndt
      have hcnt : List.countP (fun k => badAt cfg (removeItem cfg w k0) k) ks
          = List.countP (fun k => badAt cfg w k) ks :=
        countP_congrB ks _ _ hbadeq
      refine ⟨?_, ih2, ?_, ?_⟩
      · rw [ih1, hcnt]
        simp only [List.countP_cons, hbad0, if_true]
        omega
      · intro fk hfk
        have h1 : fk ≠ getKey cfg k0 := by
          intro h
          refine hfk ?_
          rw [List.map_cons, h]
          exact List.mem_cons_self _ _
        have h2 : fk ∉ ks.map (fun k => getKey cfg k) := by
          intro hm
          refine hfk ?_
          rw [List.map_cons]
          exact List.mem_cons_of_mem _ hm
        rw [ih3 fk h2, hframe fk h1]
      · intro k hk
        rcases List.mem_cons.mp hk with rfl | hk'
        · rw [hbad0, if_pos rfl, ih3 (getKey cfg k) hk0nm, hw1store]
          exact rawGet_rawRemove_self _ _
        · rw [ih4 k hk', hbadeq k hk', hframe (getKey cfg k) (hnemap k hk')]

/-- World with one prefixed entry holding the empty string — a value
`JSON.parse` cannot parse, reachable e.g. through `importData` writing
`""` verbatim. -/
def wEmptyEntry : World :=
  { available := true, now := 100,
    store := [("app:e", .lit "")],
    setFailure := none, errors := [], events := [] }

/-- Claim C7 counterexample: the prefixed entry `"app:e"` holds the empty
string, which cannot be parsed (`JSON.parse("")` throws), so the claim
says `cleanupExpiredItems` deletes and counts it; but the loop's
`if (!rawItem) return;` guard skips the falsy empty string first, so the
code counts 0 and preserves the entry. -/
theorem cleanup_preserves_empty_corrupt :
    jsonParseEnv (.lit "") = none ∧
    (cleanupExpiredItems ⟨"app", "1.0.0"⟩ wEmptyEntry).1 = 0 ∧
    rawGet (cleanupExpiredItems ⟨"app", "1.0.0"⟩ wEmptyEntry).2.store "app:e"
      = some (.lit "") :=
  ⟨rfl, rfl, rfl⟩

/-- Claim C7 (amended): `cleanupExpiredItems` iterates every key under the
configured prefix and deletes-and-counts an entry exactly when it is
NON-EMPTY and expired or unparsable — the `if (!rawItem) return;` guard
preserves (and does not count) an entry holding the empty string; valid
entries and keys outside the prefix are left untouched.  (`hnd` says the
snapshot of prefixed keys, re-prefixed, is duplicate-free — true of a
real store, whose keys are unique.)  The claim's concrete scenario (2
expired + 1 valid → returns 2, valid entry remains) is the witness. -/
theorem cleanup_expired_correct (cfg : Config) (w : World)
    (hav : w.available = true)
    (hnd : ((getAllKeys cfg w).map (fun k => getKey cfg k)).Nodup) :
    (cleanupExpiredItems cfg w).1
      = (getAllKeys cfg w).countP (fun k => badAt cfg w k) ∧
    (∀ k ∈ getAllKeys cfg w,
      rawGet (cleanupExpiredItems cfg w).2.store (getKey cfg k)
        = if badAt cfg w k then none else rawGet w.store (getKey cfg k)) ∧
    (∀ fk, fk ∉ (getAllKeys cfg w).map (fun k => getKey cfg k) →
      rawGet (cleanupExpiredItems cfg w).2.store fk = rawGet w.store fk) := by
  have h := cleanup_fold_spec cfg (getAllKeys cfg w) 0 w hav hnd
  have hunf : cleanupExpiredItems cfg w
      = (getAllKeys cfg w).foldl (cleanupStep cfg) (0, w) := by
    unfold cleanupExpiredItems
    rw [hav]
    simp
  rw [hunf]
  exact ⟨by rw [h.1]; omega, h.2.2.2, h.2.2.1⟩

/-- The claim's concrete scenario: prefix "app", two expired entries
("app:a", "app:b", `expiresAt` 5 and 6, now = 100) and one valid entry
("app:c", no expiry). -/
def wClean : World :=
  { available := true, now := 100,
    store := [("app:a", .envJson ⟨.jnum 1, some 5, 1, "v"⟩),
              ("app:b", .envJson ⟨.jnum 2, some 6, 1, "v"⟩),
              ("app:c", .envJson ⟨.jnum 3, none, 1, "v"⟩)],
    setFailure := none, errors := [], events := [] }

theorem cleanup_expired_correct_witness :
    (cleanupExpiredItems ⟨"app", "1.0.0"⟩ wClean).1 = 2 ∧
    rawGet (cleanupExpiredItems ⟨"app", "1.0.0"⟩ wClean).2.store "app:a" = none ∧
    rawGet (cleanupExpiredItems ⟨"app", "1.0.0"⟩ wClean).2.store "app:b" = none ∧
    rawGet (cleanupExpiredItems ⟨"app", "1.0.0"⟩ wClean).2.store "app:c"
      = some (.envJson ⟨.jnum 3, none, 1, "v"⟩) := by
  have h := cleanup_expired_correct ⟨"app", "1.0.0"⟩ wClean rfl (by decide)
  exact ⟨by rw [h.1]; rfl, rfl, rfl, rfl⟩

/-! ### Claim C9 -/

/-- Claim C9: `getItemMetadata` plain-JSON-parses the stored envelope and
returns `{createdAt, expiresAt, version}` — `null` when the entry is
absent or unparsable — and performs no store mutation (it is a pure
function of the world).  In particular, on an entry whose `expiresAt` is
in the past it still returns the metadata, while `getItem` on the same
world returns `null` AND deletes the entry. -/
theorem metadata_read_frame (cfg : Config) (w : World) (key : String)
    (e : Envelope) (n : Int)
    (w3 : World) (k3 : String)
    (w4 : World) (k4 : String) (s4 : JStr)
    (hav : w.available = true)
    (hget : rawGet w.store (getKey cfg key) = some (.envJson e))
    (hexp : e.expiresAt = some n) (hn : n ≠ 0) (hpast : n < w.now)
    (hav3 : w3.available = true)
    (hget3 : rawGet w3.store (getKey cfg k3) = none)
    (hav4 : w4.available = true)
    (hget4 : rawGet w4.store (getKey cfg k4) = some s4)
    (hbad4 : jsonParseEnv s4 = none) :
    getItemMetadata cfg w key = some ⟨e.createdAt, e.expiresAt, e.version⟩ ∧
    (getItem cfg w key noOptions).1 = none ∧
    rawGet (getItem cfg w key noOptions).2.store (getKey cfg key) = none ∧
    getItemMetadata cfg w3 k3 = none ∧
    getItemMetadata cfg w4 k4 = none := by
  have hdead : isExpiredAt w.now e = true := by
    simp [isExpiredAt, hexp, hn, hpast]
  refine ⟨getItemMetadata_found cfg w key e hav hget, ?_, ?_, ?_, ?_⟩
  · rw [getItem_dead cfg w key e noOptions hav hget rfl rfl hdead]
  · rw [getItem_dead cfg w key e noOptions hav hget rfl rfl hdead,
      removeItem_store cfg w key hav]
    exact rawGet_rawRemove_self _ _
  · simp [getItemMetadata, hav3, hget3]
  · unfold getItemMetadata
    rw [hav4, hget4]
    by_cases hes : isEmptyStr s4
    · simp [hes]
    · simp [hes, hbad4]

/-- World with an already-expired entry under "m" (expiry 5, now 100). -/
def wMeta : World :=
  { available := true, now := 100,
    store := [("m", .envJson ⟨.jnum 9, some 5, 2, "1.0.0"⟩)],
    setFailure := none, errors := [], events := [] }

theorem metadata_read_frame_witness :
    getItemMetadata defaultConfig wMeta "m" = some ⟨2, some 5, "1.0.0"⟩ ∧
    (getItem defaultConfig wMeta "m" noOptions).1 = none ∧
    rawGet (getItem defaultConfig wMeta "m" noOptions).2.store
      (getKey defaultConfig "m") = none ∧
    getItemMetadata defaultConfig wEx "absent" = none ∧
    getItemMetadata defaultConfig wCorrupt "c" = none :=
  metadata_read_frame defaultConfig wMeta "m" ⟨.jnum 9, some 5, 2, "1.0.0"⟩ 5
    wEx "absent" wCorrupt "c" (.lit "garbage")
    rfl rfl rfl (by decide) (by decide) rfl rfl rfl rfl rfl

end LSModel
